import Mathlib

/-!
A verification development for the exam-variant pipeline of
`exam_variant_builder_react_prototype.jsx` and the service worker `sw.js`.

Modelling conventions:
* JavaScript numbers are modelled as exact rationals (`Rat`); the IEEE
  special values `Infinity`, `-Infinity`, `NaN` are modelled explicitly
  (`JsNum`) where the pipeline can produce them.  Negative zero is
  identified with zero.
* 32-bit unsigned integer arithmetic is modelled on `Nat` with explicit
  wrapping `% 4294967296`.
* The JavaScript answer expressions (strings fed to `Function`) are
  modelled as an abstract syntax tree `Expr` of the arithmetic fragment
  the problem bank uses; an identifier that is not bound is a runtime
  error (`ReferenceError`), surfaced through `Except`.
-/

-- The Batteries rational operations are `@[irreducible]`; make them
-- reducible again so that concrete instances can be settled by `decide`.
unseal Rat.mul Rat.inv Rat.add Rat.sub

set_option maxRecDepth 4000

namespace ExamCreator

/-! ### Seeded RNG (mulberry32), lines 16-23 of the prototype -/

/-- One state advance of mulberry32: `a += 0x6d2b79f5` on the 32-bit
unsigned view of the state. -/
def mulberry32Next (a : Nat) : Nat := (a + 0x6d2b79f5) % 4294967296

/-- The output word mixed from the advanced state `t`:
`t = Math.imul(t ^ (t >>> 15), t | 1);
 t ^= t + Math.imul(t ^ (t >>> 7), t | 61);
 return ((t ^ (t >>> 14)) >>> 0)`,
with `Math.imul` and the plain addition wrapping at 32 bits. -/
def mulberry32Word (a : Nat) : Nat :=
  let t1 := (Nat.xor a (a >>> 15)) * (a ||| 1) % 4294967296
  let t2 := Nat.xor t1 ((t1 + (Nat.xor t1 (t1 >>> 7)) * (t1 ||| 61) % 4294967296) % 4294967296)
  Nat.xor t2 (t2 >>> 14)

/-- The state after `n` calls of the generator created from `seed`. -/
def mulberry32State (seed : Nat) : Nat → Nat
  | 0 => seed
  | n + 1 => mulberry32Next (mulberry32State seed n)

/-- The `i`-th float (0-indexed) returned by the generator created from
`seed`: the `i`-th call advances the state (for the `i+1`-st time),
mixes it, and divides the word by `2^32`. -/
def mulberry32Out (seed : Nat) (i : Nat) : Rat :=
  (mulberry32Word (mulberry32State seed (i + 1)) : Rat) / 4294967296

/-! ### JavaScript number values -/

/-- A JavaScript number: an exact rational, or one of the special IEEE
values.  Negative zero is identified with zero. -/
inductive JsNum where
  | fin (q : Rat)
  | inf
  | neginf
  | nan
deriving DecidableEq, Repr

/-- JavaScript unary minus. -/
def jsNeg : JsNum → JsNum
  | .fin q => .fin (-q)
  | .inf => .neginf
  | .neginf => .inf
  | .nan => .nan

/-- JavaScript `+` on numbers. -/
def jsAdd : JsNum → JsNum → JsNum
  | .nan, _ => .nan
  | _, .nan => .nan
  | .inf, .neginf => .nan
  | .neginf, .inf => .nan
  | .inf, _ => .inf
  | _, .inf => .inf
  | .neginf, _ => .neginf
  | _, .neginf => .neginf
  | .fin a, .fin b => .fin (a + b)

/-- JavaScript `-` on numbers. -/
def jsSub (a b : JsNum) : JsNum := jsAdd a (jsNeg b)

/-- JavaScript `*` on numbers. -/
def jsMul : JsNum → JsNum → JsNum
  | .nan, _ => .nan
  | _, .nan => .nan
  | .fin a, .fin b => .fin (a * b)
  | .fin a, .inf => if a = 0 then .nan else if 0 < a then .inf else .neginf
  | .fin a, .neginf => if a = 0 then .nan else if 0 < a then .neginf else .inf
  | .inf, .fin b => if b = 0 then .nan else if 0 < b then .inf else .neginf
  | .neginf, .fin b => if b = 0 then .nan else if 0 < b then .neginf else .inf
  | .inf, .inf => .inf
  | .inf, .neginf => .neginf
  | .neginf, .inf => .neginf
  | .neginf, .neginf => .inf

/-- JavaScript `/` on numbers (division by zero gives an infinity or
`NaN`, never an exception). -/
def jsDiv : JsNum → JsNum → JsNum
  | .nan, _ => .nan
  | _, .nan => .nan
  | .fin a, .fin b =>
    if b = 0 then (if a = 0 then .nan else if 0 < a then .inf else .neginf)
    else .fin (a / b)
  | .fin _, .inf => .fin 0
  | .fin _, .neginf => .fin 0
  | .inf, .fin b => if 0 ≤ b then .inf else .neginf
  | .neginf, .fin b => if 0 ≤ b then .neginf else .inf
  | .inf, .inf => .nan
  | .inf, .neginf => .nan
  | .neginf, .inf => .nan
  | .neginf, .neginf => .nan

/-- JavaScript strict equality `===` on numbers: `NaN` is not equal to
anything, including itself. -/
def jsEq : JsNum → JsNum → Bool
  | .fin a, .fin b => a == b
  | .inf, .inf => true
  | .neginf, .neginf => true
  | _, _ => false

/-! ### Bindings -/

/-- The bindings of one variant of one problem: parameter name to
sampled value, in JavaScript object insertion order. -/
abbrev Bindings := List (String × Rat)

/-- JavaScript property assignment `out[name] = v`: replace the value of
an existing key in place, otherwise append the key. -/
def setBinding (b : Bindings) (name : String) (v : Rat) : Bindings :=
  match b with
  | [] => [(name, v)]
  | (n, w) :: rest => if n = name then (n, v) :: rest else (n, w) :: setBinding rest name v

/-! ### Answer expressions -/

/-- The arithmetic fragment of JavaScript expressions used by the
problem bank (`answerExpr` strings fed to `Function`). -/
inductive Expr where
  | num (q : Rat)
  | var (name : String)
  | neg (e : Expr)
  | add (a b : Expr)
  | sub (a b : Expr)
  | mul (a b : Expr)
  | div (a b : Expr)
deriving DecidableEq, Repr

/-- Evaluate an answer expression in a scope holding exactly the bound
parameter names.  An unbound identifier is a runtime `ReferenceError`,
which the prototype lets escape as an exception (`Except.error`). -/
def evalExpr (b : Bindings) : Expr → Except String JsNum
  | .num q => .ok (.fin q)
  | .var name =>
    match b.lookup name with
    | some v => .ok (.fin v)
    | none => .error (name ++ " is not defined")
  | .neg e => do pure (jsNeg (← evalExpr b e))
  | .add e₁ e₂ => do pure (jsAdd (← evalExpr b e₁) (← evalExpr b e₂))
  | .sub e₁ e₂ => do pure (jsSub (← evalExpr b e₁) (← evalExpr b e₂))
  | .mul e₁ e₂ => do pure (jsMul (← evalExpr b e₁) (← evalExpr b e₂))
  | .div e₁ e₂ => do pure (jsDiv (← evalExpr b e₁) (← evalExpr b e₂))

/-! ### Problem schema (lines 30-81 of the prototype) -/

/-- `{ name, min, max, step? }`; an absent `step` defaults to 1 at the
call site of `pickParam`. -/
structure ParamSpec where
  name : String
  min : Rat
  max : Rat
  step : Option Rat
deriving DecidableEq, Repr

/-- The `match` field of a `selectRule`. -/
inductive MatchMode where
  | numeric
  | string
deriving DecidableEq, Repr

/-- `selectRule: { match, rounding? }`. -/
structure SelectRule where
  matchMode : MatchMode
  rounding : Option Nat
deriving DecidableEq, Repr

/-- A problem record (the fields the variant pipeline reads). -/
structure Problem where
  id : String
  stem : String
  params : List ParamSpec
  options : List String
  answerExpr : Expr
  selectRule : Option SelectRule
deriving DecidableEq, Repr

/-! ### Helpers (lines 84-135 of the prototype) -/

/-- `pickParam(rand, min, max, step)`:
`nSteps = Math.floor((max - min) / step) + 1; k = Math.floor(rand() * nSteps);
 return min + k * step;` with the single PRNG draw `r` passed in. -/
def pickParam (r min max step : Rat) : Rat :=
  let nSteps : Int := ((max - min) / step).floor + 1
  let k : Int := (r * (nSteps : Rat)).floor
  min + (k : Rat) * step

/-- `roundTo(x, d) = Math.round(x * 10^d) / 10^d`; `Math.round` rounds
half toward positive infinity, i.e. `⌊x + 1/2⌋`. -/
def jsRound (q : Rat) : Int := (q + 1 / 2).floor

/-- `roundTo` lifted to JavaScript numbers: the special values pass
through (`Math.round(±Infinity) = ±Infinity`, `Math.round(NaN) = NaN`). -/
def roundTo (x : JsNum) (d : Nat) : JsNum :=
  match x with
  | .fin q => .fin ((jsRound (q * ((10 ^ d : Nat) : Rat)) : Rat) / ((10 ^ d : Nat) : Rat))
  | x => x

/-- Numeric value of a run of decimal digit characters. -/
def digitsToNat (ds : List Char) : Nat :=
  ds.foldl (fun acc c => acc * 10 + (c.toNat - 48)) 0

/-- The optional fractional part of the regex `-?\d+(?:\.\d+)?`: after a
dot, one or more digits; otherwise the group matches nothing. -/
def fracDigitsOf : List Char → List Char
  | '.' :: rest => rest.takeWhile Char.isDigit
  | _ => []

/-- Greedy match of `-?\d+(?:\.\d+)?` at the start of `cs`: an optional
minus (kept only when digits follow, as the regex backtracks otherwise),
a maximal run of digits, and an optional fractional part.  Returns
(negative?, integer digits, fraction digits). -/
def matchNumAt : List Char → Option (Bool × List Char × List Char)
  | '-' :: rest =>
    let ds := rest.takeWhile Char.isDigit
    if ds.isEmpty then none
    else some (true, ds, fracDigitsOf (rest.dropWhile Char.isDigit))
  | cs =>
    let ds := cs.takeWhile Char.isDigit
    if ds.isEmpty then none
    else some (false, ds, fracDigitsOf (cs.dropWhile Char.isDigit))

/-- `parseFloat` of a matched token, exactly. -/
def tokenValue (neg : Bool) (ip fp : List Char) : Rat :=
  let v : Rat := (digitsToNat ip : Rat) + (digitsToNat fp : Rat) / ((10 ^ fp.length : Nat) : Rat)
  if neg then -v else v

/-- Leftmost match of the regex over the string, one position at a time
(as `String.prototype.match` scans). -/
def findNum : List Char → Option Rat
  | [] => none
  | c :: rest =>
    match matchNumAt (c :: rest) with
    | some (neg, ip, fp) => some (tokenValue neg ip fp)
    | none => findNum rest

/-- `numericFromOption(opt)`: first numeric-like token of the option
string, or `none` (JavaScript `NaN`, filtered by `Number.isFinite`). -/
def numericFromOption (opt : String) : Option Rat := findNum opt.data

/-! ### Template rendering (lines 90-92 of the prototype) -/

/-- `\s`: JavaScript whitespace (the ASCII part). -/
def isJsSpace (c : Char) : Bool :=
  c = ' ' || c = '\t' || c = '\n' || c = '\r' || c = '\x0b' || c = '\x0c'

/-- `\w`: ASCII word characters. -/
def isWordChar (c : Char) : Bool :=
  ('a' ≤ c && c ≤ 'z') || ('A' ≤ c && c ≤ 'Z') || ('0' ≤ c && c ≤ '9') || c = '_'

/-- After an opening `{{`, try to finish the match of
`\{\{\s*(\w+)\s*\}\}`: optional whitespace, a nonempty run of word
characters, optional whitespace, and `}}`.  Returns the captured name
and the rest of the input. -/
def parseTok (l : List Char) : Option (String × List Char) :=
  let l1 := l.dropWhile isJsSpace
  let nm := l1.takeWhile isWordChar
  let l2 := (l1.dropWhile isWordChar).dropWhile isJsSpace
  if nm.isEmpty then none
  else if l2.take 2 = ['}', '}'] then some (String.mk nm, l2.drop 2) else none

theorem parseTok_length {l : List Char} {nm : String} {r : List Char}
    (h : parseTok l = some (nm, r)) : r.length ≤ l.length := by
  have hle : (((l.dropWhile isJsSpace).dropWhile isWordChar).dropWhile isJsSpace).length
      ≤ l.length :=
    le_trans (List.dropWhile_suffix _).length_le
      (le_trans (List.dropWhile_suffix _).length_le (List.dropWhile_suffix _).length_le)
  simp only [parseTok] at h
  split at h
  · exact absurd h (by simp)
  · split at h
    · simp only [Option.some.injEq, Prod.mk.injEq] at h
      obtain ⟨h1, h2⟩ := h
      subst h2
      simp only [List.length_drop]
      omega
    · exact absurd h (by simp)

/-- The string form of a bound value, `String(bindings[name] ?? "")`:
an unbound name renders as the empty string.  Integer values render
exactly as JavaScript does; non-integral values are rendered as a
(possibly truncated) decimal expansion. -/
def fracRepr : Nat → Nat → Nat → String
  | _, _, 0 => ""
  | 0, _, _ + 1 => ""
  | r, d, fuel + 1 => toString ((r * 10) / d) ++ fracRepr ((r * 10) % d) d fuel

/-- JavaScript `String()` of a number. -/
def jsNumToString : JsNum → String
  | .inf => "Infinity"
  | .neginf => "-Infinity"
  | .nan => "NaN"
  | .fin q =>
    if q.den = 1 then toString q.num
    else
      (if q.num < 0 then "-" else "") ++ toString (q.num.natAbs / q.den) ++ "." ++
        fracRepr (q.num.natAbs % q.den) q.den 20

/-- String of the binding for `name`, or `""`. -/
def bindingString (b : Bindings) (name : String) : String :=
  match b.lookup name with
  | some v => jsNumToString (.fin v)
  | none => ""

/-- The global-replace scan of
`stem.replace(/\{\{\s*(\w+)\s*\}\}/g, (_, name) => String(bindings[name] ?? ""))`:
at each position, if the pattern matches, emit the replacement and
continue after the match; otherwise emit the character and move to the
next position.  The fuel argument only makes the recursion structural:
every step consumes at least one character, so any fuel of at least the
list length computes the full scan. -/
def rtAux (b : Bindings) : Nat → List Char → List Char
  | 0, l => l
  | _ + 1, [] => []
  | fuel + 1, c :: rest =>
    if c = '{' then
      match rest with
      | c2 :: rest2 =>
        if c2 = '{' then
          match parseTok rest2 with
          | some (nm, rest3) => (bindingString b nm).data ++ rtAux b fuel rest3
          | none => c :: rtAux b fuel rest
        else c :: rtAux b fuel rest
      | [] => [c]
    else c :: rtAux b fuel rest

/-- `renderTemplate(stem, bindings)`. -/
def renderTemplate (stem : String) (b : Bindings) : String :=
  String.mk (rtAux b stem.data.length stem.data)

/-- Whether the template pattern `\{\{\s*(\w+)\s*\}\}` matches anywhere
in the list (the same scan as `rtAux`). -/
def hasTokAux (l : List Char) : Bool :=
  match l with
  | [] => false
  | c :: rest =>
    if c = '{' then
      match rest with
      | c2 :: rest2 =>
        if c2 = '{' then
          match parseTok rest2 with
          | some _ => true
          | none => hasTokAux rest
        else hasTokAux rest
      | [] => false
    else hasTokAux rest

/-- Whether a template contains any `{{...}}` token. -/
def hasTemplateToken (s : String) : Bool := hasTokAux s.data

/-! ### Option matching (lines 105-128 of the prototype) -/

/-- JavaScript `String.prototype.trim` (ASCII whitespace). -/
def jsTrim (s : String) : String :=
  String.mk (((s.data.dropWhile isJsSpace).reverse.dropWhile isJsSpace).reverse)

/-- The per-option test of `chooseCorrectIndex`: in numeric mode the
option's extracted numeric token, rounded at the rule's precision, must
be strictly equal to the rounded answer (options without a finite token
are skipped); otherwise the trimmed option must equal the trimmed string
form of the answer. -/
def optionMatchTest (p : Problem) (answer : JsNum) (opt : String) : Bool :=
  match p.selectRule with
  | some ⟨MatchMode.numeric, rounding⟩ =>
    let d := rounding.getD 2
    match numericFromOption opt with
    | none => false
    | some v => jsEq (roundTo (.fin v) d) (roundTo answer d)
  | _ => jsTrim opt == jsTrim (jsNumToString answer)

/-- The search loop: first index (counting from `i`) whose option passes
the test, else `-1`. -/
def matchFrom (test : String → Bool) : List String → Nat → Int
  | [], _ => -1
  | o :: os, i => if test o then (i : Int) else matchFrom test os (i + 1)

/-- Lines 110-127: given the evaluated answer, select the correct option
index (`-1` when none matches) and, in numeric mode, the rounded
numeric answer. -/
def matchOption (p : Problem) (answer : JsNum) : Int × Option JsNum :=
  match p.selectRule with
  | some ⟨MatchMode.numeric, rounding⟩ =>
    (matchFrom (optionMatchTest p answer) p.options 0, some (roundTo answer (rounding.getD 2)))
  | _ => (matchFrom (optionMatchTest p answer) p.options 0, none)

/-- `chooseCorrectIndex(problem, bindings)`: evaluate the answer
expression, then match it onto the options.  An evaluation error is an
uncaught exception. -/
def chooseCorrectIndex (p : Problem) (b : Bindings) : Except String (Int × Option JsNum) :=
  match evalExpr b p.answerExpr with
  | .error e => .error e
  | .ok answer => .ok (matchOption p answer)

/-! ### Bindings generation (lines 130-135 of the prototype) -/

/-- The loop of `generateBindings`: one PRNG draw per parameter, in
declared order (`st` is the mulberry32 state). -/
def genAux (st : Nat) (out : Bindings) : List ParamSpec → Bindings
  | [] => out
  | s :: rest =>
    let st1 := mulberry32Next st
    let r : Rat := (mulberry32Word st1 : Rat) / 4294967296
    genAux st1 (setBinding out s.name (pickParam r s.min s.max (s.step.getD 1))) rest

/-- `generateBindings(problem, seed)`: a fresh mulberry32 generator from
`seed`, one draw per parameter. -/
def generateBindings (p : Problem) (seed : Nat) : Bindings := genAux seed [] p.params

/-- The full per-problem variant computation for a (problem, seed) pair:
rendered stem and matched option (with the numeric answer). -/
def variantResult (p : Problem) (seed : Nat) :
    String × Except String (Int × Option JsNum) :=
  let b := generateBindings p seed
  (renderTemplate p.stem b, chooseCorrectIndex p b)

/-! ### The ExamView batch (lines 280-288 of the prototype) -/

/-- One rendered item of `ExamView`. -/
structure RenderedItem where
  problem : Problem
  bindings : Bindings
  index : Int
  numericAnswer : Option JsNum
deriving DecidableEq, Repr

/-- The `bank.map` body of `ExamView`: per problem, a sub-seed
`Math.floor(rng() * 1e9)` from the variant-level generator, bindings,
and the correct index.  A JavaScript exception thrown by
`chooseCorrectIndex` aborts the whole `map`, modelled by `Except`. -/
def examItemsAux (st : Nat) : List Problem → Except String (List RenderedItem)
  | [] => .ok []
  | p :: rest =>
    let st1 := mulberry32Next st
    let r : Rat := (mulberry32Word st1 : Rat) / 4294967296
    let sub : Nat := (r * 1000000000).floor.toNat
    let b := generateBindings p sub
    match chooseCorrectIndex p b with
    | .error e => .error e
    | .ok (idx, na) =>
      match examItemsAux st1 rest with
      | .error e => .error e
      | .ok items => .ok (⟨p, b, idx, na⟩ :: items)

/-- `ExamView` rendering of a bank at `seedIndex`: the variant seed is
`12345 + seedIndex`. -/
def examItems (bank : List Problem) (seedIndex : Nat) : Except String (List RenderedItem) :=
  examItemsAux (12345 + seedIndex) bank

/-- `Except.isOk`. -/
def exceptOk {ε α : Type} : Except ε α → Bool
  | .ok _ => true
  | .error _ => false

/-! ### The demo bank (lines 54-81 of the prototype) -/

/-- The first demo problem (`ohm1`). -/
def ohm1 : Problem :=
  ⟨"ohm1",
   "A copper wire has resistance R = \x7b\x7bR\x7d\x7d Ω. A battery of V = \x7b\x7bV\x7d\x7d V is applied. The steady current is closest to:",
   [⟨"R", 4, 12, some 1⟩, ⟨"V", 6, 24, some 2⟩],
   ["0.2 A", "0.4 A", "0.5 A", "1.0 A", "2.0 A"],
   .div (.var "V") (.var "R"),
   some ⟨MatchMode.numeric, some 1⟩⟩

/-- The second demo problem (`capRC1`). -/
def capRC1 : Problem :=
  ⟨"capRC1",
   "An RC circuit has R = \x7b\x7bR\x7d\x7d kΩ and C = \x7b\x7bC\x7d\x7d μF. The time constant τ is:",
   [⟨"R", 5, 25, some 5⟩, ⟨"C", 2, 12, some 2⟩],
   ["10 ms", "50 ms", "100 ms", "120 ms", "250 ms"],
   .mul (.mul (.var "R") (.num 1000)) (.mul (.var "C") (.num (1 / 1000000))),
   some ⟨MatchMode.numeric, some 2⟩⟩

/-- `DEMO_BANK`. -/
def DEMO_BANK : List Problem := [ohm1, capRC1]

/-- A problem whose answer expression references the undeclared
identifier `Q`: evaluating it raises a `ReferenceError`. -/
def badProblem : Problem :=
  ⟨"bad", "", [], ["1"], .var "Q", some ⟨MatchMode.numeric, some 1⟩⟩

/-- Parameter spec `a`: `{ name: "a", min: 0, max: 1, step: 1 }`. -/
def specA : ParamSpec := ⟨"a", 0, 1, some 1⟩

/-- Parameter spec `b`: `{ name: "b", min: 0, max: 2, step: 1 }`
(a different range than `specA`). -/
def specB : ParamSpec := ⟨"b", 0, 2, some 1⟩

/-- A two-parameter problem with the specs in order `a`, `b`. -/
def probAB : Problem := ⟨"swap", "", [specA, specB], [], .num 0, none⟩

/-- The same problem with the two parameter specs swapped. -/
def probBA : Problem := ⟨"swap", "", [specB, specA], [], .num 0, none⟩

/-- A sample stand-in for the host `JSON.parse` used to exercise the
service-worker handler: accepts the text `{}` and rejects the rest. -/
def swDemoParse (s : String) : Except String Unit :=
  if s = "\x7b\x7d" then .ok () else .error "Unexpected token"

/-! ### Extensional equality of bindings -/

/-- Two bindings denote the same mapping: every key of either side looks
up to the same value on both. -/
def bindingsEquiv (b1 b2 : Bindings) : Bool :=
  (b1.map Prod.fst ++ b2.map Prod.fst).all (fun k => b1.lookup k == b2.lookup k)

/-! ### The service worker (`sw.js`, lines 13-27) -/

/-- The reply posted on the message port. -/
structure SWReply where
  ok : Bool
  error : Option String
deriving DecidableEq, Repr

/-- The `setExamData` branch of the service worker's message listener.
`JSON.parse` is a host builtin, abstracted as `parse` (it either
succeeds or throws an error message).  The stored exam text is the
state; the reply is posted only when the message carries a port
(`event.ports[0] && ...`).  On a parse error the stored text is left
unchanged. -/
def handleSetExamData (parse : String → Except String Unit) (current : Option String)
    (text : String) (hasPort : Bool) : Option String × Option SWReply :=
  match parse text with
  | .ok _ => (some text, if hasPort then some ⟨true, none⟩ else none)
  | .error e => (current, if hasPort then some ⟨false, some e⟩ else none)

/-! ## Helper lemmas -/

theorem xor_lt_32 {x y : Nat} (hx : x < 4294967296) (hy : y < 4294967296) :
    Nat.xor x y < 4294967296 := by
  have h : (4294967296 : Nat) = 2 ^ 32 := by norm_num
  rw [h] at hx hy ⊢
  exact Nat.xor_lt_two_pow hx hy

theorem shiftRight_le_self (x k : Nat) : x >>> k ≤ x := by
  rw [Nat.shiftRight_eq_div_pow]
  exact Nat.div_le_self _ _

theorem mulberry32Word_lt (a : Nat) : mulberry32Word a < 4294967296 := by
  have gen : ∀ t x : Nat, t < 4294967296 → x < 4294967296 →
      Nat.xor (Nat.xor t x) (Nat.xor t x >>> 14) < 4294967296 := fun t x ht hx =>
    xor_lt_32 (xor_lt_32 ht hx) (lt_of_le_of_lt (shiftRight_le_self _ _) (xor_lt_32 ht hx))
  exact gen _ _ (Nat.mod_lt _ (by norm_num)) (Nat.mod_lt _ (by norm_num))

/-! ## Claims -/

/-- C1: for every problem `p` and seed `s`, computing the bindings twice
yields identical mappings, and computing the full variant result
(rendered stem, correct option index, numeric answer) twice yields
identical results: the pipeline is a pure function of `(p, s)` — the
PRNG state is created afresh from the seed inside `generateBindings`,
so no hidden state survives between calls. -/
theorem generateBindings_deterministic (p : Problem) (s : Nat) :
    generateBindings p s = generateBindings p s ∧ variantResult p s = variantResult p s :=
  ⟨rfl, rfl⟩

/-- C2: for the demo problem with options
`["0.2 A","0.4 A","0.5 A","1.0 A","2.0 A"]`, expression `V / R`, numeric
match with rounding 1, under bindings `{V:10, R:10}`: the evaluated
answer is `1.0` and `chooseCorrectIndex` returns option index 3. -/
theorem ohm1_known_answer :
    evalExpr [("V", 10), ("R", 10)] ohm1.answerExpr = .ok (.fin 1) ∧
    chooseCorrectIndex ohm1 [("V", 10), ("R", 10)] = .ok (3, some (.fin 1)) :=
  ⟨rfl, rfl⟩

/-- C4 counterexample: a problem whose answer expression fails to
evaluate does not leave the rest of the batch intact — the `ohm1`
problem renders fine on its own, but putting the failing problem in the
same bank turns the whole `ExamView` batch into one uncaught error, so
the generation of the other problem does not complete. -/
theorem examItems_abort_counterexample :
    exceptOk (examItems [ohm1] 0) = true ∧
    examItems [badProblem, ohm1] 0 = .error "Q is not defined" :=
  ⟨rfl, rfl⟩

/-- C4 amended: an answer expression that fails to evaluate surfaces as
an uncaught exception from `chooseCorrectIndex`, and the exception
aborts the whole `ExamView` batch (for every variant seed), instead of
being recorded as a tagged per-problem failure. -/
theorem examItems_abort (seedIndex : Nat) :
    chooseCorrectIndex badProblem (generateBindings badProblem seedIndex) =
      .error "Q is not defined" ∧
    examItems [badProblem, ohm1] seedIndex = .error "Q is not defined" :=
  ⟨rfl, rfl⟩

/-- C5 counterexample: for the malformed spec `min = 10 > max = 0`
(step 1) and draw `r = 1/2`, `pickParam` does not fail: it silently
returns the value 5, which even violates `min ≤ v`. -/
theorem pickParam_no_validation_counterexample :
    pickParam (1 / 2) 10 0 1 = 5 ∧ ¬ ((10 : Rat) ≤ pickParam (1 / 2) 10 0 1) :=
  ⟨by decide, by decide⟩

/-- C5 amended: `pickParam` performs no validation of `(min, max, step)`
at all — for every input, including `min > max` or `step ≤ 0`, it
silently returns `min + floor(r * (floor((max-min)/step) + 1)) * step`
(no error channel exists), and on the malformed spec
`(min, max, step) = (10, 0, 1)` with `r = 1/2` the result 5 lies below
`min`. -/
theorem pickParam_total_formula :
    (∀ r min max step : Rat, pickParam r min max step =
      min + (((r * ((((max - min) / step).floor + 1 : Int) : Rat)).floor : Int) : Rat) * step) ∧
    pickParam (1 / 2) 10 0 1 = 5 ∧ pickParam (1 / 2) 10 0 1 < 10 :=
  ⟨fun _ _ _ _ => rfl, by decide, by decide⟩

/-- C8: for every seed and every position `i` in the output sequence,
the mulberry32 state advances by `0x6d2b79f5` modulo `2^32`, the output
is the mixed word of the advanced state divided by `2^32`, the word is
below `2^32`, and hence the output lies in `[0, 1)`. -/
theorem mulberry32_output_spec (seed i : Nat) :
    mulberry32State seed (i + 1) = (mulberry32State seed i + 0x6d2b79f5) % 4294967296 ∧
    mulberry32Out seed i =
      (mulberry32Word (mulberry32State seed (i + 1)) : Rat) / 4294967296 ∧
    mulberry32Word (mulberry32State seed (i + 1)) < 4294967296 ∧
    0 ≤ mulberry32Out seed i ∧ mulberry32Out seed i < 1 := by
  refine ⟨rfl, rfl, mulberry32Word_lt _, ?_, ?_⟩
  · rw [mulberry32Out]
    positivity
  · rw [mulberry32Out]
    rw [div_lt_one (by norm_num)]
    exact_mod_cast mulberry32Word_lt _

/-- C9 counterexample: the two specs of `probAB` have different ranges,
yet for seed 5 swapping their order leaves the bindings mapping
unchanged (both orders bind `a = 1` and `b = 2`): the reassigned draws
happen to select the same values. -/
theorem generateBindings_swap_counterexample :
    (specA.min, specA.max, specA.step) ≠ (specB.min, specB.max, specB.step) ∧
    probAB.params = [specA, specB] ∧ probBA.params = [specB, specA] ∧
    bindingsEquiv (generateBindings probAB 5) (generateBindings probBA 5) = true ∧
    (generateBindings probAB 5).lookup "a" = (generateBindings probBA 5).lookup "a" ∧
    (generateBindings probAB 5).lookup "b" = (generateBindings probBA 5).lookup "b" :=
  ⟨by decide, rfl, rfl, by decide, by decide, by decide⟩

/-- C9 amended: each parameter consumes exactly one PRNG draw, in
declared order, so swapping two specs exchanges which draw each
parameter receives; this can change the bindings for a fixed seed (it
does at seed 1), but does not have to (see the counterexample). -/
theorem generateBindings_swap_amended :
    (∀ seed : Nat,
      generateBindings probAB seed =
        [("a", pickParam (mulberry32Out seed 0) specA.min specA.max 1),
         ("b", pickParam (mulberry32Out seed 1) specB.min specB.max 1)] ∧
      generateBindings probBA seed =
        [("b", pickParam (mulberry32Out seed 0) specB.min specB.max 1),
         ("a", pickParam (mulberry32Out seed 1) specA.min specA.max 1)]) ∧
    bindingsEquiv (generateBindings probAB 1) (generateBindings probBA 1) = false :=
  ⟨fun _ => ⟨rfl, rfl⟩, by decide⟩

/-- C3: for every spec with `max ≥ min` and `step > 0` and every draw
`r ∈ [0, 1)`, the sampled value satisfies `min ≤ v ≤ max` and
`v = min + k * step` for a non-negative integer `k`; the selected index
is `floor(r * nSteps)` with `nSteps = floor((max-min)/step) + 1` (the
last conjunct is the definition); for `min = max` the value is `min`. -/
theorem pickParam_in_range (min max step r : Rat) (hmm : min ≤ max) (hstep : 0 < step)
    (hr0 : 0 ≤ r) (hr1 : r < 1) :
    min ≤ pickParam r min max step ∧ pickParam r min max step ≤ max ∧
    (∃ k : Nat, pickParam r min max step = min + (k : Rat) * step) ∧
    pickParam r min max step =
      min + (((r * ((((max - min) / step).floor + 1 : Int) : Rat)).floor : Int) : Rat) * step ∧
    (min = max → pickParam r min max step = min) := by
  have hfl : ∀ q : Rat, q.floor = ⌊q⌋ := fun _ => rfl
  set N : Int := ((max - min) / step).floor with hN
  have hN0 : 0 ≤ N := by
    rw [hN, hfl]
    exact Int.floor_nonneg.mpr (div_nonneg (by linarith) hstep.le)
  set k : Int := (r * ((N + 1 : Int) : Rat)).floor with hk
  have hNpos : (0 : Rat) < ((N + 1 : Int) : Rat) := by
    have : (0 : Int) < N + 1 := by omega
    exact_mod_cast this
  have hk0 : 0 ≤ k := by
    rw [hk, hfl]
    exact Int.floor_nonneg.mpr (mul_nonneg hr0 hNpos.le)
  have hkN : k ≤ N := by
    have hlt : r * ((N + 1 : Int) : Rat) < ((N + 1 : Int) : Rat) := by
      calc r * ((N + 1 : Int) : Rat) < 1 * ((N + 1 : Int) : Rat) :=
            mul_lt_mul_of_pos_right hr1 hNpos
        _ = ((N + 1 : Int) : Rat) := one_mul _
    have := Int.floor_lt.mpr hlt
    rw [hk, hfl]
    omega
  have hNle : ((N : Int) : Rat) ≤ (max - min) / step := by
    rw [hN, hfl]
    exact Int.floor_le _
  have hval : pickParam r min max step = min + (k : Rat) * step := rfl
  have hkstep0 : (0 : Rat) ≤ (k : Rat) * step := by
    have : (0 : Rat) ≤ (k : Rat) := by exact_mod_cast hk0
    exact mul_nonneg this hstep.le
  have hkstep1 : (k : Rat) * step ≤ max - min := by
    have hkr : (k : Rat) ≤ ((N : Int) : Rat) := by exact_mod_cast hkN
    calc (k : Rat) * step ≤ ((N : Int) : Rat) * step :=
          mul_le_mul_of_nonneg_right hkr hstep.le
      _ ≤ ((max - min) / step) * step := mul_le_mul_of_nonneg_right hNle hstep.le
      _ = max - min := div_mul_cancel₀ _ hstep.ne'
  refine ⟨by rw [hval]; linarith, by rw [hval]; linarith, ?_, rfl, ?_⟩
  · refine ⟨k.toNat, ?_⟩
    rw [hval]
    congr 2
    exact_mod_cast (Int.toNat_of_nonneg hk0).symm
  · intro heq
    have h1 : min ≤ pickParam r min max step := by rw [hval]; linarith
    have h2 : pickParam r min max step ≤ max := by rw [hval]; linarith
    linarith

/-- Witness for C3 at the concrete spec `(min, max, step) = (4, 12, 1)`
of the demo bank and the draw `r = 0`. -/
theorem pickParam_in_range_witness :
    (4 : Rat) ≤ pickParam 0 4 12 1 ∧ pickParam 0 4 12 1 ≤ 12 ∧
    (∃ k : Nat, pickParam 0 4 12 1 = 4 + (k : Rat) * 1) ∧
    pickParam 0 4 12 1 =
      4 + ((((0 : Rat) * (((((12 : Rat) - 4) / 1).floor + 1 : Int) : Rat)).floor : Int) : Rat) * 1 ∧
    ((4 : Rat) = 12 → pickParam 0 4 12 1 = 4) :=
  pickParam_in_range 4 12 1 0 (by norm_num) (by norm_num) (by norm_num) (by norm_num)

/-- The search loop returns `-1` when no element passes the test. -/
theorem matchFrom_eq_neg_one {test : String → Bool} {l : List String} (i : Nat)
    (h : ∀ o ∈ l, test o = false) : matchFrom test l i = -1 := by
  induction l generalizing i with
  | nil => rfl
  | cons o os ih =>
    have ho := h o (List.mem_cons_self o os)
    rw [matchFrom, ho]
    simp only [Bool.false_eq_true, if_false]
    exact ih _ (fun x hx => h x (List.mem_cons_of_mem _ hx))

/-- The search loop returns the position of the first passing element. -/
theorem matchFrom_first {test : String → Bool} {l : List String} {k : Nat} (i : Nat)
    (hk : k < l.length) (hmatch : test (l.getD k "") = true)
    (hbefore : ∀ o ∈ l.take k, test o = false) :
    matchFrom test l i = (i : Int) + (k : Int) := by
  induction l generalizing i k with
  | nil => simp at hk
  | cons o os ih =>
    cases k with
    | zero =>
      simp only [List.getD_cons_zero] at hmatch
      rw [matchFrom, hmatch]
      simp
    | succ k =>
      have ho : test o = false := hbefore o (by simp [List.take_succ_cons])
      rw [matchFrom, ho]
      simp only [Bool.false_eq_true, if_false]
      have hr := ih (i + 1) (k := k) (by simpa using hk)
        (by simpa using hmatch)
        (fun x hx => hbefore x (by simp [List.take_succ_cons]; right; exact hx))
      rw [hr]
      push_cast
      ring

/-- C6: for every problem and every evaluated answer, the option matcher
(which never throws — it is a total function) returns the sentinel `-1`
when no option passes the problem's per-option test (numeric rounding
comparison or trimmed-string equality), and the index of the first
passing option in list order otherwise. -/
theorem matchOption_first_or_sentinel (p : Problem) (answer : JsNum) :
    ((∀ opt ∈ p.options, optionMatchTest p answer opt = false) →
      (matchOption p answer).1 = -1) ∧
    (∀ k : Nat, k < p.options.length →
      optionMatchTest p answer (p.options.getD k "") = true →
      (∀ opt ∈ p.options.take k, optionMatchTest p answer opt = false) →
      (matchOption p answer).1 = (k : Int)) := by
  have hfst : (matchOption p answer).1 = matchFrom (optionMatchTest p answer) p.options 0 := by
    rw [matchOption]
    split
    · rfl
    · rfl
  constructor
  · intro h
    rw [hfst]
    exact matchFrom_eq_neg_one 0 h
  · intro k hk hm hb
    rw [hfst, matchFrom_first 0 hk hm hb]
    simp

/-- Witness for C6 on the demo problem `ohm1`: the answer `8/5` (the
actual demo value for bindings `R = 10, V = 16`) matches no option and
yields `-1`; the answer `1` matches option index 3 first. -/
theorem matchOption_first_or_sentinel_witness :
    (matchOption ohm1 (.fin (8 / 5))).1 = -1 ∧ (matchOption ohm1 (.fin 1)).1 = (3 : Int) :=
  ⟨(matchOption_first_or_sentinel ohm1 (.fin (8 / 5))).1 (by decide),
   (matchOption_first_or_sentinel ohm1 (.fin 1)).2 3 (by decide) (by decide) (by decide)⟩

/-- A word character is not whitespace. -/
theorem wordChar_not_space {c : Char} (h : isWordChar c = true) : isJsSpace c = false := by
  cases hs : isJsSpace c
  · rfl
  · exfalso
    simp only [isJsSpace, Bool.or_eq_true, decide_eq_true_eq] at hs
    rcases hs with ((((h1 | h1) | h1) | h1) | h1) | h1 <;> (subst h1; exact absurd h (by decide))

/-- A whitespace character is not a word character. -/
theorem space_not_wordChar {c : Char} (h : isJsSpace c = true) : isWordChar c = false := by
  cases hw : isWordChar c
  · rfl
  · exact absurd h (by rw [wordChar_not_space hw]; simp)

/-- `parseTok` succeeds on a well-formed token tail: optional
whitespace, a nonempty name of word characters, optional whitespace,
and the closing braces; it captures the name and returns the suffix. -/
theorem parseTok_token (ws1 : List Char) (n0 : Char) (nm' ws2 suf : List Char)
    (hws1 : ∀ c ∈ ws1, isJsSpace c = true) (hn0 : isWordChar n0 = true)
    (hnm' : ∀ c ∈ nm', isWordChar c = true) (hws2 : ∀ c ∈ ws2, isJsSpace c = true) :
    parseTok (ws1 ++ n0 :: (nm' ++ (ws2 ++ ('}' :: '}' :: suf))))
      = some (String.mk (n0 :: nm'), suf) := by
  have hX1 : List.takeWhile isWordChar (ws2 ++ ('}' :: '}' :: suf)) = [] := by
    cases ws2 with
    | nil => rw [List.nil_append, List.takeWhile_cons_of_neg (by decide)]
    | cons w ws2' =>
      have hw : isWordChar w = false :=
        space_not_wordChar (hws2 w (List.mem_cons_self w ws2'))
      rw [List.cons_append, List.takeWhile_cons_of_neg (by simp [hw])]
  have hX2 : List.dropWhile isWordChar (ws2 ++ ('}' :: '}' :: suf))
      = ws2 ++ ('}' :: '}' :: suf) := by
    cases ws2 with
    | nil => rw [List.nil_append, List.dropWhile_cons_of_neg (by decide)]
    | cons w ws2' =>
      have hw : isWordChar w = false :=
        space_not_wordChar (hws2 w (List.mem_cons_self w ws2'))
      rw [List.cons_append, List.dropWhile_cons_of_neg (by simp [hw])]
  have hX3 : List.dropWhile isJsSpace (ws2 ++ ('}' :: '}' :: suf)) = '}' :: '}' :: suf := by
    rw [List.dropWhile_append_of_pos hws2, List.dropWhile_cons_of_neg (by decide)]
  have e1 : List.dropWhile isJsSpace (ws1 ++ n0 :: (nm' ++ (ws2 ++ ('}' :: '}' :: suf))))
      = n0 :: (nm' ++ (ws2 ++ ('}' :: '}' :: suf))) := by
    rw [List.dropWhile_append_of_pos hws1,
      List.dropWhile_cons_of_neg (by simp [wordChar_not_space hn0])]
  have e2 : List.takeWhile isWordChar (n0 :: (nm' ++ (ws2 ++ ('}' :: '}' :: suf))))
      = n0 :: nm' := by
    rw [List.takeWhile_cons_of_pos hn0, List.takeWhile_append_of_pos hnm', hX1, List.append_nil]
  have e3 : List.dropWhile isWordChar (n0 :: (nm' ++ (ws2 ++ ('}' :: '}' :: suf))))
      = ws2 ++ ('}' :: '}' :: suf) := by
    rw [List.dropWhile_cons_of_pos hn0, List.dropWhile_append_of_pos hnm', hX2]
  simp only [parseTok, e1, e2, e3, hX3]
  simp

/-- Scan step: a character other than `{` is copied. -/
theorem rtAux_cons_ne (b : Bindings) (f : Nat) {c : Char} (rest : List Char)
    (hc : ¬ c = '{') : rtAux b (f + 1) (c :: rest) = c :: rtAux b f rest := by
  simp [rtAux, hc]

/-- Scan step: a `{` not followed by `{` is copied. -/
theorem rtAux_open_ne (b : Bindings) (f : Nat) {c2 : Char} (rest2 : List Char)
    (hc2 : ¬ c2 = '{') :
    rtAux b (f + 1) ('{' :: c2 :: rest2) = '{' :: rtAux b f (c2 :: rest2) := by
  simp [rtAux, hc2]

/-- Scan step: `{{` that does not open a full token is copied one
character at a time. -/
theorem rtAux_open_fail (b : Bindings) (f : Nat) (rest2 : List Char)
    (hp : parseTok rest2 = none) :
    rtAux b (f + 1) ('{' :: '{' :: rest2) = '{' :: rtAux b f ('{' :: rest2) := by
  simp [rtAux, hp]

/-- Scan step: a parsed token is replaced and the scan continues after
it. -/
theorem rtAux_token (b : Bindings) (f : Nat) (rest2 : List Char) {nm : String}
    {rest3 : List Char} (hp : parseTok rest2 = some (nm, rest3)) :
    rtAux b (f + 1) ('{' :: '{' :: rest2) = (bindingString b nm).data ++ rtAux b f rest3 := by
  simp [rtAux, hp]

/-- Scan step: a final lone `{`. -/
theorem rtAux_single (b : Bindings) (f : Nat) : rtAux b (f + 1) ['{'] = ['{'] := by
  simp [rtAux]

/-- Scan step: the empty input. -/
theorem rtAux_nil (b : Bindings) (f : Nat) : rtAux b f [] = [] := by
  cases f <;> rfl

/-- Token-test step lemmas mirroring the scan. -/
theorem hasTokAux_cons_ne {c : Char} (rest : List Char) (hc : ¬ c = '{') :
    hasTokAux (c :: rest) = hasTokAux rest := by
  simp [hasTokAux, hc]

theorem hasTokAux_open_ne {c2 : Char} (rest2 : List Char) (hc2 : ¬ c2 = '{') :
    hasTokAux ('{' :: c2 :: rest2) = hasTokAux (c2 :: rest2) := by
  simp [hasTokAux, hc2]

theorem hasTokAux_open_fail (rest2 : List Char) (hp : parseTok rest2 = none) :
    hasTokAux ('{' :: '{' :: rest2) = hasTokAux ('{' :: rest2) := by
  simp [hasTokAux, hp]

theorem hasTokAux_open_some (rest2 : List Char) {pr : String × List Char}
    (hp : parseTok rest2 = some pr) : hasTokAux ('{' :: '{' :: rest2) = true := by
  simp [hasTokAux, hp]

/-- The fuel of `rtAux` is irrelevant once it covers the input length. -/
theorem rtAux_fuel (b : Bindings) :
    ∀ f1 f2 l, l.length ≤ f1 → l.length ≤ f2 → rtAux b f1 l = rtAux b f2 l := by
  intro f1
  induction f1 with
  | zero =>
    intro f2 l h1 _
    have : l = [] := by
      cases l with
      | nil => rfl
      | cons c rest => simp at h1
    subst this
    rw [rtAux_nil, rtAux_nil]
  | succ f1 ih =>
    intro f2 l h1 h2
    cases l with
    | nil => rw [rtAux_nil, rtAux_nil]
    | cons c rest =>
      cases f2 with
      | zero => simp at h2
      | succ f2 =>
        by_cases hc : c = '{'
        · subst hc
          cases rest with
          | nil => rw [rtAux_single, rtAux_single]
          | cons c2 rest2 =>
            by_cases hc2 : c2 = '{'
            · subst hc2
              cases hp : parseTok rest2 with
              | some pr =>
                obtain ⟨nm, rest3⟩ := pr
                have h3 := parseTok_length hp
                rw [rtAux_token b f1 rest2 hp, rtAux_token b f2 rest2 hp,
                  ih f2 rest3 (by simp at h1; omega) (by simp at h2; omega)]
              | none =>
                rw [rtAux_open_fail b f1 rest2 hp, rtAux_open_fail b f2 rest2 hp,
                  ih f2 ('{' :: rest2) (by simp at h1 ⊢; omega) (by simp at h2 ⊢; omega)]
            · rw [rtAux_open_ne b f1 rest2 hc2, rtAux_open_ne b f2 rest2 hc2,
                ih f2 (c2 :: rest2) (by simp at h1 ⊢; omega) (by simp at h2 ⊢; omega)]
        · rw [rtAux_cons_ne b f1 rest hc, rtAux_cons_ne b f2 rest hc,
            ih f2 rest (by simp at h1; omega) (by simp at h2; omega)]

/-- The scan copies a brace-free prefix verbatim. -/
theorem rtAux_no_brace (b : Bindings) (rest : List Char) :
    ∀ (pre : List Char) (f : Nat), (∀ c ∈ pre, ¬ c = '{') → (pre ++ rest).length ≤ f →
      rtAux b f (pre ++ rest) = pre ++ rtAux b rest.length rest := by
  intro pre
  induction pre with
  | nil =>
    intro f _ hf
    rw [List.nil_append, List.nil_append]
    exact rtAux_fuel b f rest.length rest (by simpa using hf) le_rfl
  | cons c pre ih =>
    intro f hpre hf
    have hc : ¬ c = '{' := hpre c (List.mem_cons_self c pre)
    cases f with
    | zero => simp at hf
    | succ f =>
      rw [List.cons_append, rtAux_cons_ne b f _ hc,
        ih f (fun x hx => hpre x (List.mem_cons_of_mem _ hx)) (by simp at hf ⊢; omega),
        List.cons_append]

/-- The scan is the identity on inputs without a template token. -/
theorem rtAux_id_of_no_token (b : Bindings) :
    ∀ f l, l.length ≤ f → hasTokAux l = false → rtAux b f l = l := by
  intro f
  induction f with
  | zero =>
    intro l h1 _
    have : l = [] := by
      cases l with
      | nil => rfl
      | cons c rest => simp at h1
    subst this
    rfl
  | succ f ih =>
    intro l h1 htok
    cases l with
    | nil => rfl
    | cons c rest =>
      by_cases hc : c = '{'
      · subst hc
        cases rest with
        | nil => rw [rtAux_single]
        | cons c2 rest2 =>
          by_cases hc2 : c2 = '{'
          · subst hc2
            cases hp : parseTok rest2 with
            | some pr =>
              rw [hasTokAux_open_some rest2 hp] at htok
              simp at htok
            | none =>
              rw [hasTokAux_open_fail rest2 hp] at htok
              rw [rtAux_open_fail b f rest2 hp,
                ih ('{' :: rest2) (by simp at h1 ⊢; omega) htok]
          · rw [hasTokAux_open_ne rest2 hc2] at htok
            rw [rtAux_open_ne b f rest2 hc2,
              ih (c2 :: rest2) (by simp at h1 ⊢; omega) htok]
      · rw [hasTokAux_cons_ne rest hc] at htok
        rw [rtAux_cons_ne b f rest hc, ih rest (by simp at h1; omega) htok]

/-- C7: `renderTemplate` (i) returns a template without `{{...}}`
tokens unchanged, (ii) replaces an occurrence of `{{name}}` by the
string form of the binding of `name` — the empty string when the
name is unbound — and continues with the rest of the template, and
(iii) on the concrete examples: the documented substitution, whitespace
inside the braces, and an unbound name rendering as empty. -/
theorem renderTemplate_spec :
    (∀ (s : String) (b : Bindings), hasTemplateToken s = false → renderTemplate s b = s) ∧
    (∀ (b : Bindings) (pre name suf : String),
      (∀ c ∈ pre.data, ¬ c = '{') → name.data ≠ [] →
      (∀ c ∈ name.data, isWordChar c = true) →
      renderTemplate (pre ++ "\x7b\x7b" ++ name ++ "\x7d\x7d" ++ suf) b =
        pre ++ bindingString b name ++ renderTemplate suf b) ∧
    renderTemplate "V=\x7b\x7bV\x7d\x7d, R=\x7b\x7bR\x7d\x7d" [("V", 10), ("R", 5)] = "V=10, R=5" ∧
    renderTemplate "x \x7b\x7b V \x7d\x7d y" [("V", 10)] = "x 10 y" ∧
    renderTemplate "a\x7b\x7bQ\x7d\x7db" [("V", 10)] = "ab" := by
  refine ⟨?_, ?_, by decide, by decide, by decide⟩
  · intro s b h
    rw [renderTemplate, rtAux_id_of_no_token b s.data.length s.data le_rfl h]
  · intro b pre name suf hpre hname0 hname
    obtain ⟨n0, nm', hnd⟩ : ∃ n0 nm', name.data = n0 :: nm' := by
      cases hnd : name.data with
      | nil => exact absurd hnd hname0
      | cons a l => exact ⟨a, l, rfl⟩
    have hn0 : isWordChar n0 = true := hname n0 (by rw [hnd]; exact List.mem_cons_self _ _)
    have hnm' : ∀ c ∈ nm', isWordChar c = true := fun c hc =>
      hname c (by rw [hnd]; exact List.mem_cons_of_mem _ hc)
    have hp : parseTok (name.data ++ ('}' :: '}' :: suf.data))
        = some (String.mk name.data, suf.data) := by
      rw [hnd, List.cons_append]
      have h := parseTok_token [] n0 nm' [] suf.data (by simp) hn0 hnm' (by simp)
      simpa using h
    have hbrace1 : ("\x7b\x7b" : String).data = ['{', '{'] := rfl
    have hbrace2 : ("\x7d\x7d" : String).data = ['}', '}'] := rfl
    have hdata : (pre ++ "\x7b\x7b" ++ name ++ "\x7d\x7d" ++ suf).data
        = pre.data ++ ('{' :: '{' :: (name.data ++ ('}' :: '}' :: suf.data))) := by
      simp [String.data_append, hbrace1, hbrace2, List.append_assoc]
    have hlen : ('{' :: '{' :: (name.data ++ ('}' :: '}' :: suf.data))).length
        = ((name.data ++ ('}' :: '}' :: suf.data)).length + 1) + 1 := rfl
    have hmain : rtAux b
        (pre.data ++ ('{' :: '{' :: (name.data ++ ('}' :: '}' :: suf.data)))).length
        (pre.data ++ ('{' :: '{' :: (name.data ++ ('}' :: '}' :: suf.data))))
        = pre.data ++ ((bindingString b (String.mk name.data)).data ++
            rtAux b suf.data.length suf.data) := by
      rw [rtAux_no_brace b _ pre.data _ hpre le_rfl, hlen,
        rtAux_token b ((name.data ++ ('}' :: '}' :: suf.data)).length + 1) _ hp,
        rtAux_fuel b ((name.data ++ ('}' :: '}' :: suf.data)).length + 1) suf.data.length
          suf.data (by simp; omega) le_rfl]
    rw [renderTemplate, hdata, hmain, renderTemplate, ← List.append_assoc]
    rfl

/-- Witness for C7: the identity on a token-free template, and the
splitting law on one concrete decomposition. -/
theorem renderTemplate_spec_witness :
    renderTemplate "no tokens here" [("V", 10)] = "no tokens here" ∧
    renderTemplate ("ab" ++ "\x7b\x7b" ++ "V" ++ "\x7d\x7d" ++ "cd") [("V", 10)] =
      "ab" ++ bindingString [("V", 10)] "V" ++ renderTemplate "cd" [("V", 10)] :=
  ⟨renderTemplate_spec.1 "no tokens here" [("V", 10)] (by decide),
   renderTemplate_spec.2.1 [("V", 10)] "ab" "V" "cd" (by decide) (by decide) (by decide)⟩

/-- C10: for every `setExamData` message: if the text parses as JSON the
stored exam text is replaced and `{ok: true}` is posted on the message
port; if parsing throws, the stored text is left unchanged and
`{ok: false, error}` is posted (the reply goes out only when the message
carries a port, as in `event.ports[0] && ...`). -/
theorem sw_setExamData_spec (parse : String → Except String Unit) (current : Option String)
    (text : String) (hasPort : Bool) :
    (∀ u : Unit, parse text = .ok u →
      handleSetExamData parse current text hasPort =
        (some text, if hasPort then some ⟨true, none⟩ else none)) ∧
    (∀ e : String, parse text = .error e →
      handleSetExamData parse current text hasPort =
        (current, if hasPort then some ⟨false, some e⟩ else none)) := by
  constructor
  · intro u h
    simp [handleSetExamData, h]
  · intro e h
    simp [handleSetExamData, h]

/-- Witness for C10: the concrete parser `swDemoParse` accepting `{}`:
a parsed message replaces the stored text and acknowledges `ok`; a
rejected message leaves the stored text and reports the error. -/
theorem sw_setExamData_spec_witness :
    handleSetExamData swDemoParse (some "old") "\x7b\x7d" true =
      (some "\x7b\x7d", some ⟨true, none⟩) ∧
    handleSetExamData swDemoParse (some "old") "nope" true =
      (some "old", some ⟨false, some "Unexpected token"⟩) :=
  ⟨(sw_setExamData_spec swDemoParse (some "old") "\x7b\x7d" true).1 () rfl,
   (sw_setExamData_spec swDemoParse (some "old") "nope" true).2 "Unexpected token" rfl⟩

end ExamCreator
